import Mathlib

/-!
Verification of the protosuit-engine ESP32 bridge firmware.

Shallow embedding of the host-link framing/CRC layer, the parameter
registry and menu state, the liveness query, and the LED strip animation
engine, translated from:
  - src/firmware/esp32/src/mqtt_bridge.cpp
  - src/firmware/esp32/src/led_strips.cpp
  - src/firmware/esp32/include/config.h, include/mqtt_bridge.h
  - src/esp32/src/mqtt_bridge.cpp (earlier bridge variant, for equivalence)

Strings are modelled as `List Char` (the firmware only ever handles ASCII
bytes); machine `uint8_t` values are `Nat` with explicit `% 256` where the
C code performs an implicit narrowing conversion.
-/

namespace Protosuit

/-- CRC-8/SMBUS lookup table (polynomial 0x07), transcribed from the
`crc8Table` array in mqtt_bridge.cpp. -/
def crc8Table : List Nat := [
  0x00,0x07,0x0E,0x09,0x1C,0x1B,0x12,0x15,0x38,0x3F,0x36,0x31,0x24,0x23,0x2A,0x2D,
  0x70,0x77,0x7E,0x79,0x6C,0x6B,0x62,0x65,0x48,0x4F,0x46,0x41,0x54,0x53,0x5A,0x5D,
  0xE0,0xE7,0xEE,0xE9,0xFC,0xFB,0xF2,0xF5,0xD8,0xDF,0xD6,0xD1,0xC4,0xC3,0xCA,0xCD,
  0x90,0x97,0x9E,0x99,0x8C,0x8B,0x82,0x85,0xA8,0xAF,0xA6,0xA1,0xB4,0xB3,0xBA,0xBD,
  0xC7,0xC0,0xC9,0xCE,0xDB,0xDC,0xD5,0xD2,0xFF,0xF8,0xF1,0xF6,0xE3,0xE4,0xED,0xEA,
  0xB7,0xB0,0xB9,0xBE,0xAB,0xAC,0xA5,0xA2,0x8F,0x88,0x81,0x86,0x93,0x94,0x9D,0x9A,
  0x27,0x20,0x29,0x2E,0x3B,0x3C,0x35,0x32,0x1F,0x18,0x11,0x16,0x03,0x04,0x0D,0x0A,
  0x57,0x50,0x59,0x5E,0x4B,0x4C,0x45,0x42,0x6F,0x68,0x61,0x66,0x73,0x74,0x7D,0x7A,
  0x89,0x8E,0x87,0x80,0x95,0x92,0x9B,0x9C,0xB1,0xB6,0xBF,0xB8,0xAD,0xAA,0xA3,0xA4,
  0xF9,0xFE,0xF7,0xF0,0xE5,0xE2,0xEB,0xEC,0xC1,0xC6,0xCF,0xC8,0xDD,0xDA,0xD3,0xD4,
  0x69,0x6E,0x67,0x60,0x75,0x72,0x7B,0x7C,0x51,0x56,0x5F,0x58,0x4D,0x4A,0x43,0x44,
  0x19,0x1E,0x17,0x10,0x05,0x02,0x0B,0x0C,0x21,0x26,0x2F,0x28,0x3D,0x3A,0x33,0x34,
  0x4E,0x49,0x40,0x47,0x52,0x55,0x5C,0x5B,0x76,0x71,0x78,0x7F,0x6A,0x6D,0x64,0x63,
  0x3E,0x39,0x30,0x37,0x22,0x25,0x2C,0x2B,0x06,0x01,0x08,0x0F,0x1A,0x1D,0x14,0x13,
  0xAE,0xA9,0xA0,0xA7,0xB2,0xB5,0xBC,0xBB,0x96,0x91,0x98,0x9F,0x8A,0x8D,0x84,0x83,
  0xDE,0xD9,0xD0,0xD7,0xC2,0xC5,0xCC,0xCB,0xE6,0xE1,0xE8,0xEF,0xFA,0xFD,0xF4,0xF3]

/-- Single step of the table-driven CRC-8: `crc = crc8Table[crc ^ (uint8_t)byte]`. -/
def crc8Step (crc : Nat) (c : Char) : Nat :=
  crc8Table.getD (crc ^^^ (c.toNat % 256)) 0

/-- CRC-8/SMBUS over a character list, translated from `crc8` in
mqtt_bridge.cpp (init value 0). -/
def crc8 (data : List Char) : Nat :=
  data.foldl crc8Step 0

/-- Hex digit characters, from the `hexChars` array in mqtt_bridge.cpp. -/
def hexChars : List Char :=
  ['0','1','2','3','4','5','6','7','8','9','A','B','C','D','E','F']

/-- Protocol constants from config.h: direction markers, separator,
checksum delimiter. -/
def MSG_FROM_PI : Char := '>'

def MSG_TO_PI : Char := '<'

def MSG_SEPARATOR : Char := '\t'

def MSG_CRC_DELIM : Char := '*'

/-- Host liveness timeout from config.h. -/
def PI_TIMEOUT : Nat := 5000

/-- Frame body as built by `mqttBridgePublish`: `topic SEP payload` followed
by the checksum delimiter and two uppercase hex digits of the CRC-8 of the
body. -/
def publishBody (topic payload : List Char) : List Char :=
  let body := topic ++ MSG_SEPARATOR :: payload
  let crc := crc8 body
  body ++ MSG_CRC_DELIM :: [hexChars.getD (crc / 16) '0', hexChars.getD (crc % 16) '0']

/-- Full outbound frame emitted by `mqttBridgePublish`:
`<toHostMarker><topic>\t<payload>*<HH>\n`. -/
def mqttBridgePublish (topic payload : List Char) : List Char :=
  MSG_TO_PI :: publishBody topic payload ++ ['\n']

/-- Result of `String::lastIndexOf(char)`: index of the last occurrence,
or -1 when absent. -/
def lastIndexOfC (c : Char) : List Char → Int
  | [] => -1
  | x :: xs =>
    if 0 ≤ lastIndexOfC c xs then lastIndexOfC c xs + 1
    else if x = c then 0 else -1

/-- Result of `String::indexOf(char)`: index of the first occurrence, or -1
when absent. -/
def indexOfC (c : Char) : List Char → Int
  | [] => -1
  | x :: xs =>
    if x = c then 0
    else if 0 ≤ indexOfC c xs then indexOfC c xs + 1 else -1

/-- Value of a hex digit character, used to model `strtoul(..., 16)`. -/
def hexDigitVal (c : Char) : Nat :=
  if '0' ≤ c ∧ c ≤ '9' then c.toNat - '0'.toNat
  else if 'a' ≤ c ∧ c ≤ 'f' then c.toNat - 'a'.toNat + 10
  else c.toNat - 'A'.toNat + 10

/-- Recognizer for hex digit characters. -/
def isHexDigit (c : Char) : Bool :=
  ('0' ≤ c ∧ c ≤ '9') ∨ ('a' ≤ c ∧ c ≤ 'f') ∨ ('A' ≤ c ∧ c ≤ 'F')

/-- Model of `strtoul(s, nullptr, 16)` on the checksum field: parses the
maximal leading run of hex digits (the firmware only ever passes the two
characters after the checksum delimiter, so the whitespace/sign/base-prefix
cases of the C library function cannot arise). -/
def strtoul16 : List Char → Nat
  | [] => 0
  | c :: cs => if isHexDigit c then strtoul16Aux (hexDigitVal c) cs else 0
where
  strtoul16Aux (acc : Nat) : List Char → Nat
    | [] => acc
    | c :: cs => if isHexDigit c then strtoul16Aux (acc * 16 + hexDigitVal c) cs else acc

/-- Message handed to the router: (topic, payload). -/
abbrev Msg : Type := List Char × List Char

/-- State of the inbound decode loop: the accumulation buffer, the router
state mutated by dispatched messages (abstract, since `processMessage` is
the only mutation the loop performs), and the diagnostic lines printed so
far. -/
structure BridgeRun (σ : Type) where
  buffer : List Char
  st : σ
  diags : List String
deriving Repr, DecidableEq

/-- Handling of one complete line (the body of the `c == '\n'` branch of
`mqttBridgeProcess` in src/firmware/esp32/src/mqtt_bridge.cpp): marker
check, last-occurrence checksum-delimiter parse with exactly two trailing
characters, CRC comparison, first-separator topic/payload split, dispatch. -/
def handleLine {σ : Type} (handle : σ → Msg → σ) (buffer : List Char)
    (st : σ) (diags : List String) : σ × List String :=
  if buffer.length > 0 ∧ buffer.headD ' ' = MSG_FROM_PI then
    let body := buffer.tail
    let crcIdx := lastIndexOfC MSG_CRC_DELIM body
    if crcIdx ≤ 0 ∨ (body.length : Int) - crcIdx ≠ 3 then
      (st, diags ++ ["CRC MISSING"])
    else
      let crcHex := body.drop (crcIdx.toNat + 1)
      let data := body.take crcIdx.toNat
      let expected := strtoul16 crcHex % 256
      let actual := crc8 data
      if expected ≠ actual then
        (st, diags ++ ["CRC FAIL"])
      else
        let sepIndex := indexOfC MSG_SEPARATOR data
        if sepIndex > 0 then
          (handle st (data.take sepIndex.toNat, data.drop (sepIndex.toNat + 1)), diags)
        else (st, diags)
  else (st, diags)

/-- Processing of one received byte by `mqttBridgeProcess`: newline
terminates and handles the accumulated line (always clearing the buffer),
carriage returns are skipped, any other byte is appended, and the buffer is
discarded when its length exceeds 512. -/
def processChar {σ : Type} (handle : σ → Msg → σ) (r : BridgeRun σ) (c : Char) :
    BridgeRun σ :=
  if c = '\n' then
    let out := handleLine handle r.buffer r.st r.diags
    ⟨[], out.1, out.2⟩
  else if c ≠ '\r' then
    let b := r.buffer ++ [c]
    if b.length > 512 then ⟨[], r.st, r.diags⟩ else ⟨b, r.st, r.diags⟩
  else r

/-- Inbound decode loop `mqttBridgeProcess` over a byte sequence
(src/firmware/esp32/src/mqtt_bridge.cpp, lines 314-355). -/
def mqttBridgeProcess {σ : Type} (handle : σ → Msg → σ) (r : BridgeRun σ)
    (input : List Char) : BridgeRun σ :=
  input.foldl (processChar handle) r

/-- Line handling of the earlier bridge variant
(src/esp32/src/mqtt_bridge.cpp, inside lines 206-247); the decode logic is
transcribed independently from that file. -/
def handleLineV1 {σ : Type} (handle : σ → Msg → σ) (buffer : List Char)
    (st : σ) (diags : List String) : σ × List String :=
  if buffer.length > 0 ∧ buffer.headD ' ' = MSG_FROM_PI then
    let body := buffer.tail
    let crcIdx := lastIndexOfC MSG_CRC_DELIM body
    if crcIdx ≤ 0 ∨ (body.length : Int) - crcIdx ≠ 3 then
      (st, diags ++ ["CRC MISSING"])
    else
      let crcHex := body.drop (crcIdx.toNat + 1)
      let data := body.take crcIdx.toNat
      let expected := strtoul16 crcHex % 256
      let actual := crc8 data
      if expected ≠ actual then
        (st, diags ++ ["CRC FAIL"])
      else
        let sepIndex := indexOfC MSG_SEPARATOR data
        if sepIndex > 0 then
          (handle st (data.take sepIndex.toNat, data.drop (sepIndex.toNat + 1)), diags)
        else (st, diags)
  else (st, diags)

/-- Per-byte processing of the earlier bridge variant
(src/esp32/src/mqtt_bridge.cpp, lines 206-247). -/
def processCharV1 {σ : Type} (handle : σ → Msg → σ) (r : BridgeRun σ) (c : Char) :
    BridgeRun σ :=
  if c = '\n' then
    let out := handleLineV1 handle r.buffer r.st r.diags
    ⟨[], out.1, out.2⟩
  else if c ≠ '\r' then
    let b := r.buffer ++ [c]
    if b.length > 512 then ⟨[], r.st, r.diags⟩ else ⟨b, r.st, r.diags⟩
  else r

/-- Inbound decode loop of the earlier bridge variant
(src/esp32/src/mqtt_bridge.cpp, lines 206-247). -/
def mqttBridgeProcessV1 {σ : Type} (handle : σ → Msg → σ) (r : BridgeRun σ)
    (input : List Char) : BridgeRun σ :=
  input.foldl (processCharV1 handle) r

/-- Teensy menu state mirror, from `struct TeensyMenu` in mqtt_bridge.h;
every field is a `uint8_t` with the documented default. -/
structure TeensyMenu where
  face : Nat := 0
  bright : Nat := 75
  accentBright : Nat := 127
  microphone : Nat := 1
  micLevel : Nat := 5
  boopSensor : Nat := 1
  spectrumMirror : Nat := 1
  faceSize : Nat := 7
  color : Nat := 0
  hueF : Nat := 0
  hueB : Nat := 0
  effect : Nat := 0
deriving Repr, DecidableEq

/-- Entry of the parameter registry, from `struct ParamMapping` in
mqtt_bridge.cpp; the C member pointer `uint8_t TeensyMenu::*` is modelled as
a getter/setter pair. -/
structure ParamMapping where
  camel : String
  proto : String
  get : TeensyMenu → Nat
  set : TeensyMenu → Nat → TeensyMenu
  maxVal : Nat
  labels : Option (List String)

/-- Label lists from mqtt_bridge.cpp. -/
def faceLabels : List String :=
  ["DEFAULT","ANGRY","DOUBT","FROWN","LOOKUP","SAD","AUDIO1","AUDIO2","AUDIO3"]

def colorLabels : List String :=
  ["BASE","YELLOW","ORANGE","WHITE","GREEN","PURPLE","RED","BLUE",
   "RAINBOW","RAINBOWNOISE","FLOWNOISE","HORIZONTALRAINBOW","BLACK"]

def effectLabels : List String :=
  ["NONE","PHASEY","PHASEX","PHASER","GLITCHX",
   "MAGNET","FISHEYE","HBLUR","VBLUR","RBLUR"]

def toggleLabels : List String := ["OFF","ON"]

/-- Parameter registry `paramMap` from src/firmware/esp32/src/mqtt_bridge.cpp
(lines 95-108). -/
def paramMap : List ParamMapping := [
  ⟨"face",           "FACE",   (·.face),           fun s n => {s with face := n},           8,   some faceLabels⟩,
  ⟨"bright",         "BRIGHT", (·.bright),         fun s n => {s with bright := n},         254, none⟩,
  ⟨"accentBright",   "ABRIGHT",(·.accentBright),   fun s n => {s with accentBright := n},   254, none⟩,
  ⟨"microphone",     "MIC",    (·.microphone),     fun s n => {s with microphone := n},     1,   some toggleLabels⟩,
  ⟨"micLevel",       "MICLVL", (·.micLevel),       fun s n => {s with micLevel := n},       10,  none⟩,
  ⟨"boopSensor",     "BOOP",   (·.boopSensor),     fun s n => {s with boopSensor := n},     1,   some toggleLabels⟩,
  ⟨"spectrumMirror", "SPEC",   (·.spectrumMirror), fun s n => {s with spectrumMirror := n}, 1,   some toggleLabels⟩,
  ⟨"faceSize",       "SIZE",   (·.faceSize),       fun s n => {s with faceSize := n},       10,  none⟩,
  ⟨"color",          "COLOR",  (·.color),          fun s n => {s with color := n},          12,  some colorLabels⟩,
  ⟨"hueF",           "HUEF",   (·.hueF),           fun s n => {s with hueF := n},           254, none⟩,
  ⟨"hueB",           "HUEB",   (·.hueB),           fun s n => {s with hueB := n},           254, none⟩,
  ⟨"effect",         "EFFECT", (·.effect),         fun s n => {s with effect := n},         9,   some effectLabels⟩]

/-- Registry lookup by external (camelCase) name, exact match
(`findByCamel` in mqtt_bridge.cpp). -/
def findByCamel (name : String) : Option ParamMapping :=
  paramMap.find? (fun m => m.camel = name)

/-- Registry lookup by internal protocol token, case-insensitive exact
match (`findByProto` in mqtt_bridge.cpp: the probe is uppercased first). -/
def findByProto (name : List Char) : Option ParamMapping :=
  let upper := String.mk (name.map Char.toUpper)
  paramMap.find? (fun m => m.proto = upper)

/-- Narrowing conversion applied by the C assignment
`teensyMenu.*(m->field) = value;` of an `int` into a `uint8_t` field:
reduction modulo 256. -/
def u8ofInt (v : Int) : Nat := (v % 256).toNat

/-- Branch of `processMessage` for topic "protogen/visor/teensy/menu/set"
(src/firmware/esp32/src/mqtt_bridge.cpp, lines 273-299), restricted to its
effect on the menu state and the forwarded companion-device command, with
the JSON payload already parsed into (param, value). The LED strip retarget
side effect is modelled separately by the led_strips operations. -/
def processMenuSet (st : TeensyMenu) (param : String) (value : Int) :
    TeensyMenu × List String :=
  match findByCamel param with
  | some m => (m.set st (u8ofInt value),
               ["SET " ++ m.proto ++ " " ++ toString value])
  | none => (st, [])

/-- Whitespace set removed by `String::trim` (isspace). -/
def isSpaceC (c : Char) : Bool :=
  c = ' ' ∨ c = '\t' ∨ c = '\n' ∨ c = '\x0b' ∨ c = '\x0c' ∨ c = '\r'

/-- Model of `String::trim()`: strip leading and trailing whitespace. -/
def trimC (l : List Char) : List Char :=
  ((l.dropWhile isSpaceC).reverse.dropWhile isSpaceC).reverse

/-- Model of `String::toInt()` (atol): optional leading whitespace and sign
followed by a maximal digit run; anything else yields 0. -/
def atol (l : List Char) : Int :=
  let l1 := l.dropWhile isSpaceC
  match l1 with
  | '-' :: rest => -(atolDigits 0 rest)
  | '+' :: rest => atolDigits 0 rest
  | rest => atolDigits 0 rest
where
  atolDigits (acc : Nat) : List Char → Int
    | c :: cs => if c.isDigit then atolDigits (acc * 10 + (c.toNat - '0'.toNat)) cs else (acc : Int)
    | [] => (acc : Int)

/-- Model of `startsWith` on character lists (String::startsWith). -/
def startsWithC (l p : List Char) : Bool :=
  decide (l.take p.length = p)

/-- Companion-device response handling `mqttBridgeHandleTeensyResponse`
(src/firmware/esp32/src/mqtt_bridge.cpp, lines 455-497), projected onto its
effect on the menu state: the "OK SAVED"/"ERR" branches and the "BOOPED"
line only publish or retarget the LED strips and leave the menu untouched;
a recognized `TOKEN=value` line stores the parsed value into the field of
the matching registry entry. -/
def handleTeensyResponseMenu (st : TeensyMenu) (msg : List Char) : TeensyMenu :=
  if startsWithC msg ("OK SAVED".toList) then st
  else if startsWithC msg ("ERR".toList) then st
  else
    let eqIdx := indexOfC '=' msg
    if eqIdx > 0 then
      let protoParam := trimC (msg.take eqIdx.toNat)
      let value := atol (msg.drop (eqIdx.toNat + 1))
      if protoParam = "BOOPED".toList then st
      else
        match findByProto protoParam with
        | some m => m.set st (u8ofInt value)
        | none => st
    else st

/-- Host-liveness state: the alive flag and the `millis()` stamp of the
last host message. -/
structure PiLiveness where
  piAlive : Bool
  lastPiHeartbeat : Nat
deriving Repr, DecidableEq

/-- Liveness query `mqttBridgeIsPiAlive`
(src/firmware/esp32/src/mqtt_bridge.cpp, lines 357-362): the staleness
window is evaluated lazily here, clearing the flag before returning it.
The C `millis() - lastPiHeartbeat` is unsigned 32-bit subtraction, which
for a monotonic clock (now at least the stamp) equals Nat subtraction. -/
def mqttBridgeIsPiAlive (s : PiLiveness) (now : Nat) : Bool × PiLiveness :=
  if s.piAlive = true ∧ now - s.lastPiHeartbeat > PI_TIMEOUT then
    (false, ⟨false, s.lastPiHeartbeat⟩)
  else (s.piAlive, s)

/-- RGB pixel with `uint8_t` channels, modelling FastLED `CRGB`. -/
structure CRGBm where
  r : Nat
  g : Nat
  b : Nat
deriving Repr, DecidableEq

/-- FastLED `blend8(a, b, amountOfB)` with fixed blending:
`(a*(255-amt) + a + b*amt + b) >> 8`. Modelled from the FastLED library
(lib8tion), which the firmware links against; satisfies blend8 a b 0 = a
and blend8 a b 255 = b for byte inputs. -/
def blend8 (a b amt : Nat) : Nat :=
  (a * (255 - amt) + a + b * amt + b) / 256

/-- FastLED `blend(p1, p2, amountOfP2)` on pixels: channel-wise blend8. -/
def blendPx (p q : CRGBm) (amt : Nat) : CRGBm :=
  ⟨blend8 p.r q.r amt, blend8 p.g q.g amt, blend8 p.b q.b amt⟩

/-- Brightness cap from config.h (MAX_BRIGHTNESS). -/
def MAX_BRIGHTNESS : Nat := 150

/-- Crossfade duration from led_strips.cpp (TRANSITION_MS). -/
def TRANSITION_MS : Nat := 667

/-- Animation engine state: the module-level mutable variables of
led_strips.cpp. The five physical strips are modelled as one concatenated
pixel list (`leds`), matching the snapshot buffer layout. -/
structure LedState where
  targetColor : Nat := 0
  targetHueF : Nat := 0
  targetHueB : Nat := 0
  targetBright : Nat := 75
  targetFace : Nat := 0
  targetBooped : Bool := false
  transFromBright : Nat := 75
  transToBright : Nat := 75
  transStart : Nat := 0
  transActive : Bool := false
  snapshot : List CRGBm := []
  outputBright : Nat := 75
  ready : Bool := false
  needsRedraw : Bool := true
  leds : List CRGBm := []
deriving Repr

/-- Initial animation state after `ledStripsInit` (module defaults). -/
def ledStripsInitState : LedState := {}

/-- Animated palette recognizer `isAnimatedColor` from led_strips.cpp:
COLOR_RAINBOW (8) through COLOR_HORIZONTALRAINBOW (11). -/
def isAnimatedColor (color : Nat) : Bool :=
  8 ≤ color ∧ color ≤ 11

/-- Per-frame-rendering classification `isContinuous` from led_strips.cpp. -/
def isContinuous (st : LedState) : Bool :=
  if st.targetBooped then true
  else if st.targetFace ≠ 1 ∧ st.targetFace ≠ 5 ∧ isAnimatedColor st.targetColor then true
  else if st.targetBooped = false ∧ st.targetFace ≠ 1 ∧ st.targetFace ≠ 5
          ∧ st.targetColor = 0 ∧ st.targetHueF ≠ st.targetHueB then true
  else false

/-- Cosine easing from led_strips.cpp: `(1.0f - cosf(t * PI)) * 0.5f`.
The float cosine is supplied as a parameter `cosPi` (modelling
`t ↦ cosf(t * π)`): the C library cosine is external to the firmware, and
the facts the claims need (cosf(0) = 1, range within [-1, 1]) hold of every
conforming implementation and appear as hypotheses of the theorems. -/
def cosineEase (cosPi : ℚ → ℚ) (t : ℚ) : ℚ :=
  (1 - cosPi t) / 2

/-- Narrowing float-to-uint8 conversion `(uint8_t)q`: truncation then
reduction mod 256. Every use in the claims has q in [0, 256); for negative
q the C conversion is undefined behavior and the model yields 0. -/
def u8castQ (q : ℚ) : Nat := (Int.floor q).toNat % 256

/-- Transition start `beginTransition` from led_strips.cpp (lines 170-176):
snapshot the displayed pixels and record the brightness endpoints; the
`millis()` call is the `now` argument. -/
def beginTransition (st : LedState) (newBright : Nat) (now : Nat) : LedState :=
  {st with snapshot := st.leds,
           transFromBright := st.outputBright,
           transToBright := newBright,
           transStart := now,
           transActive := true}

/-- Frame computation and crossfade `ledStripsUpdate` from led_strips.cpp
(lines 190-224). The frame written by `computeTargetFrame` is passed in as
`computed` (its pixel content is produced by FastLED color conversions
modelled separately at the symbolic level by `computeTargetFrame` below and
is irrelevant to the transition logic). The float comparison
`progress >= 1.0f` with `progress = elapsed / 667.0f` holds exactly when
667 <= elapsed, since the real quotient is >= 1 exactly then and
round-to-nearest of a real >= 1 never falls below 1. -/
def ledStripsUpdate (cosPi : ℚ → ℚ) (computed : List CRGBm) (st : LedState)
    (now : Nat) : LedState :=
  if st.ready = false then st
  else if isContinuous st = false ∧ st.transActive = false ∧ st.needsRedraw = false then st
  else
    let st1 := {st with leds := computed}
    if st1.transActive then
      let elapsed := now - st1.transStart
      if TRANSITION_MS ≤ elapsed then
        {st1 with outputBright := st1.transToBright, transActive := false,
                  needsRedraw := false}
      else
        let progress : ℚ := (elapsed : ℚ) / (TRANSITION_MS : ℚ)
        let ratio := cosineEase cosPi progress
        let blendAmt := u8castQ (ratio * 255)
        {st1 with
          leds := List.zipWith (fun s c => blendPx s c blendAmt) st1.snapshot st1.leds,
          outputBright :=
            (st1.transFromBright +
              u8castQ (((st1.transToBright : ℚ) - (st1.transFromBright : ℚ)) * ratio)) % 256,
          needsRedraw := false}
    else
      {st1 with outputBright := st1.targetBright, needsRedraw := false}

/-- Retarget `ledStripsSetColor` from led_strips.cpp (lines 226-251):
clamp brightness to MAX_BRIGHTNESS, snap directly to the target on the
first activation, otherwise start a crossfade. As in `ledStripsUpdate`,
the frame written by `computeTargetFrame` on the first activation is the
`computed` argument. -/
def ledStripsSetColor (computed : List CRGBm) (st : LedState)
    (colorIndex hueF hueB bright : Nat) (now : Nat) : LedState :=
  let b := if bright > MAX_BRIGHTNESS then MAX_BRIGHTNESS else bright
  let first := st.ready = false
  let st1 := {st with ready := true}
  let changed := colorIndex ≠ st1.targetColor ∨ hueF ≠ st1.targetHueF
              ∨ hueB ≠ st1.targetHueB ∨ b ≠ st1.targetBright
  if ¬changed ∧ ¬first then st1
  else
    let st2 := {st1 with targetColor := colorIndex, targetHueF := hueF,
                         targetHueB := hueB, targetBright := b}
    if first then {st2 with leds := computed, outputBright := b}
    else {(beginTransition st2 b now) with needsRedraw := true}

/-- Startle-flag toggle `ledStripsSetBooped` from led_strips.cpp. -/
def ledStripsSetBooped (st : LedState) (booped : Bool) (now : Nat) : LedState :=
  if booped = st.targetBooped then st
  else {(beginTransition {st with targetBooped := booped} st.targetBright now) with
          needsRedraw := true}

/-- Expression override `ledStripsSetFace` from led_strips.cpp. -/
def ledStripsSetFace (st : LedState) (face : Nat) (now : Nat) : LedState :=
  if face = st.targetFace then st
  else {(beginTransition {st with targetFace := face} st.targetBright now) with
          needsRedraw := true}

/-- Symbolic pixel content for `computeTargetFrame`: a pixel is either an
RGB literal, a `CHSV(h, s, v)` value assigned to a led (converted to RGB by
FastLED on assignment), or the float wave blend of the BASE mode
(`blend(CHSV(hueF,255,255), CHSV(hueB,255,255), (sinf(2π·i/60 − 2π·now/3000)+1)/2·255)`
at pixel index i), kept symbolic because its value is float-dependent. -/
inductive Px where
  | rgb (r g b : Nat)
  | hsv (h s v : Nat)
  | wave (hueF hueB i now : Nat)
deriving Repr, DecidableEq

/-- Strip lengths from config.h: upper arch, right ear, right fin, left
fin, left ear. -/
def stripCounts : List Nat := [300, 40, 60, 60, 40]

/-- FastLED `fill_rainbow(leds, count, initialhue, -3)`: hue starts at
`initialhue` and decreases by 3 per pixel with uint8 wraparound (the int
literal -3 becomes 253), saturation 240, value 255. -/
def fill_rainbow (startHue count : Nat) : List Px :=
  (List.range count).map (fun i => Px.hsv ((startHue + 253 * i) % 256) 240 255)

/-- Solid color table `solidColors` from led_strips.cpp. -/
def solidColors : List Px := [
  Px.rgb 0 0 0,        -- 0: BASE (uses hueF/hueB wave)
  Px.rgb 255 255 0,    -- 1: YELLOW
  Px.rgb 255 165 0,    -- 2: ORANGE
  Px.rgb 255 255 255,  -- 3: WHITE
  Px.rgb 0 255 0,      -- 4: GREEN
  Px.rgb 255 0 255,    -- 5: PURPLE
  Px.rgb 255 0 0,      -- 6: RED
  Px.rgb 0 0 255,      -- 7: BLUE
  Px.rgb 0 0 0, Px.rgb 0 0 0, Px.rgb 0 0 0, Px.rgb 0 0 0,  -- 8-11: animated
  Px.rgb 0 0 0]        -- 12: BLACK

/-- Target frame computation `computeTargetFrame` from led_strips.cpp
(lines 119-167), per strip: startle rainbow, face overrides, animated
rainbow palette, BASE wave or solid hue, solid color table, default black. -/
def computeTargetFrame (st : LedState) (now : Nat) : List (List Px) :=
  if st.targetBooped then
    let startHue := (now / 10) % 256
    stripCounts.map (fun c => fill_rainbow startHue c)
  else if st.targetFace = 1 then
    stripCounts.map (fun c => List.replicate c (Px.rgb 255 0 0))
  else if st.targetFace = 5 then
    stripCounts.map (fun c => List.replicate c (Px.rgb 0 0 255))
  else if isAnimatedColor st.targetColor then
    let startHue := (now / 10) % 256
    stripCounts.map (fun c => fill_rainbow startHue c)
  else if st.targetColor = 0 then
    if st.targetHueF ≠ st.targetHueB then
      stripCounts.map (fun c =>
        (List.range c).map (fun i => Px.wave st.targetHueF st.targetHueB i now))
    else
      stripCounts.map (fun c => List.replicate c (Px.hsv st.targetHueF 255 255))
  else if st.targetColor ≤ 12 then
    stripCounts.map (fun c => List.replicate c (solidColors.getD st.targetColor (Px.rgb 0 0 0)))
  else
    stripCounts.map (fun c => List.replicate c (Px.rgb 0 0 0))

/-- Rotating rainbow sweep across every strip, as produced by the startle
branch: each strip filled by `fill_rainbow` from the time-rotating start
hue `(now / 10) & 0xFF`. -/
def rainbowSweepFrame (now : Nat) : List (List Px) :=
  stripCounts.map (fun c => fill_rainbow ((now / 10) % 256) c)

/-- Router-state instantiation that just logs every dispatched message. -/
def dispatchLog : List Msg → Msg → List Msg := fun l m => l ++ [m]

/-- Brightness-cap invariant: the target brightness, both crossfade
endpoints and the applied output brightness never exceed MAX_BRIGHTNESS. -/
abbrev brightInv (st : LedState) : Prop :=
  st.targetBright ≤ MAX_BRIGHTNESS ∧ st.transFromBright ≤ MAX_BRIGHTNESS ∧
  st.transToBright ≤ MAX_BRIGHTNESS ∧ st.outputBright ≤ MAX_BRIGHTNESS

/-! Shared lemmas about the index-searching primitives. -/

/-- Searching for an absent character yields -1. -/
theorem indexOfC_not_mem (c : Char) (l : List Char) (h : c ∉ l) :
    indexOfC c l = -1 := by
  induction l with
  | nil => rfl
  | cons x xs ih =>
    have hx : x ≠ c := fun hc => h (hc ▸ List.mem_cons_self x xs)
    have hxs : c ∉ xs := fun hc => h (List.mem_cons_of_mem x hc)
    show (if x = c then 0
          else if 0 ≤ indexOfC c xs then indexOfC c xs + 1 else -1) = -1
    rw [if_neg hx, ih hxs]
    norm_num

/-- First-occurrence index of the separator placed right after a prefix
that does not contain it. -/
theorem indexOfC_append_cons (c : Char) (xs ys : List Char) (h : c ∉ xs) :
    indexOfC c (xs ++ c :: ys) = (xs.length : Int) := by
  induction xs with
  | nil =>
    show (if c = c then 0
          else if 0 ≤ indexOfC c ys then indexOfC c ys + 1 else -1) = 0
    rw [if_pos rfl]
  | cons x l ih =>
    have hx : x ≠ c := fun hc => h (hc ▸ List.mem_cons_self x l)
    have hl : c ∉ l := fun hc => h (List.mem_cons_of_mem x hc)
    show (if x = c then 0
          else if 0 ≤ indexOfC c (l ++ c :: ys) then indexOfC c (l ++ c :: ys) + 1
               else -1) = ((x :: l).length : Int)
    rw [if_neg hx, ih hl, if_pos (Int.natCast_nonneg _)]
    simp

/-- Last-occurrence search for an absent character yields -1. -/
theorem lastIndexOfC_not_mem (c : Char) (l : List Char) (h : c ∉ l) :
    lastIndexOfC c l = -1 := by
  induction l with
  | nil => rfl
  | cons x xs ih =>
    have hx : x ≠ c := fun hc => h (hc ▸ List.mem_cons_self x xs)
    have hxs : c ∉ xs := fun hc => h (List.mem_cons_of_mem x hc)
    show (if 0 ≤ lastIndexOfC c xs then lastIndexOfC c xs + 1
          else if x = c then 0 else -1) = -1
    rw [ih hxs, if_neg (by norm_num), if_neg hx]

/-- Last-occurrence index of the delimiter when nothing after it is the
delimiter: the scan finds exactly the delimiter position. -/
theorem lastIndexOfC_append_cons (c : Char) (xs ys : List Char) (h : c ∉ ys) :
    lastIndexOfC c (xs ++ c :: ys) = (xs.length : Int) := by
  induction xs with
  | nil =>
    show (if 0 ≤ lastIndexOfC c ys then lastIndexOfC c ys + 1
          else if c = c then 0 else -1) = 0
    rw [lastIndexOfC_not_mem c ys h, if_neg (by norm_num), if_pos rfl]
  | cons x l ih =>
    show (if 0 ≤ lastIndexOfC c (l ++ c :: ys) then lastIndexOfC c (l ++ c :: ys) + 1
          else if x = c then 0 else -1) = ((x :: l).length : Int)
    rw [ih, if_pos (Int.natCast_nonneg _)]
    simp

/-! Shared lemmas about the decode loop. -/

/-- Every character of the hex alphabet emitted by the publisher is a hex
digit (out-of-range indices hit the default '0', also a hex digit). -/
theorem hexChars_getD_isHex (i : Nat) : isHexDigit (hexChars.getD i '0') = true := by
  have hlt : ∀ j < 16, isHexDigit (hexChars.getD j '0') = true := by decide
  by_cases h : i < 16
  · exact hlt i h
  · rw [List.getD_eq_default]
    · decide
    · have hl : hexChars.length = 16 := rfl
      omega

/-- Hex digits are none of the protocol's structural characters. -/
theorem isHexDigit_ne (c : Char) (h : isHexDigit c = true) :
    c ≠ '*' ∧ c ≠ '\n' ∧ c ≠ '\r' := by
  refine ⟨?_, ?_, ?_⟩ <;> rintro rfl <;> exact absurd h (by decide)

set_option maxRecDepth 8192 in
/-- Parsing the two hex digits emitted for a byte recovers the byte. -/
theorem strtoul16_hexPair (n : Nat) (h : n < 256) :
    strtoul16 [hexChars.getD (n / 16) '0', hexChars.getD (n % 16) '0'] = n := by
  have : ∀ m < 256,
      strtoul16 [hexChars.getD (m / 16) '0', hexChars.getD (m % 16) '0'] = m := by decide
  exact this n h

set_option maxRecDepth 8192 in
/-- Every entry of the CRC table (and the out-of-range default) is a byte. -/
theorem crc8Table_getD_le (i : Nat) : crc8Table.getD i 0 ≤ 255 := by
  have hlt : ∀ j < 256, crc8Table.getD j 0 ≤ 255 := by decide
  by_cases h : i < 256
  · exact hlt i h
  · rw [List.getD_eq_default]
    · decide
    · have hl : crc8Table.length = 256 := rfl
      omega

/-- CRC-8 always produces a byte. -/
theorem crc8_le (l : List Char) : crc8 l ≤ 255 := by
  suffices h : ∀ (l : List Char) (acc : Nat), acc ≤ 255 →
      List.foldl crc8Step acc l ≤ 255 from h l 0 (by norm_num)
  intro l
  induction l with
  | nil => intro acc h; exact h
  | cons c cs ih =>
    intro acc _
    exact ih (crc8Step acc c) (crc8Table_getD_le _)

/-- Unfolding of the loop over a cons cell. -/
theorem mqttBridgeProcess_cons {σ : Type} (handle : σ → Msg → σ)
    (r : BridgeRun σ) (c : Char) (cs : List Char) :
    mqttBridgeProcess handle r (c :: cs) =
      mqttBridgeProcess handle (processChar handle r c) cs := rfl

/-- Splitting of the loop over concatenated input. -/
theorem mqttBridgeProcess_append {σ : Type} (handle : σ → Msg → σ)
    (r : BridgeRun σ) (xs ys : List Char) :
    mqttBridgeProcess handle r (xs ++ ys) =
      mqttBridgeProcess handle (mqttBridgeProcess handle r xs) ys :=
  List.foldl_append _ _ _ _

/-- Accumulation: bytes that are neither newline nor carriage return are
appended to the buffer verbatim (no dispatch, no diagnostics) as long as
the 512-byte cap is not exceeded. -/
theorem mqttBridgeProcess_accum {σ : Type} (handle : σ → Msg → σ)
    (chunk : List Char) :
    ∀ (r : BridgeRun σ), (∀ c ∈ chunk, c ≠ '\n' ∧ c ≠ '\r') →
    r.buffer.length + chunk.length ≤ 512 →
    mqttBridgeProcess handle r chunk = ⟨r.buffer ++ chunk, r.st, r.diags⟩ := by
  induction chunk with
  | nil =>
    intro r _ _
    show r = _
    simp
  | cons c cs ih =>
    intro r hc hlen
    obtain ⟨hn, hr⟩ := hc c (List.mem_cons_self c cs)
    have step : processChar handle r c = ⟨r.buffer ++ [c], r.st, r.diags⟩ := by
      unfold processChar
      rw [if_neg hn, if_pos hr, if_neg ?hcap]
      case hcap =>
        simp only [List.length_append, List.length_cons, List.length_nil, gt_iff_lt,
          not_lt]
        simp only [List.length_cons] at hlen
        omega
    rw [mqttBridgeProcess_cons, step]
    rw [ih ⟨r.buffer ++ [c], r.st, r.diags⟩ (fun x hx => hc x (List.mem_cons_of_mem c hx))
        (by simp only [List.length_append, List.length_cons, List.length_nil]
            simp only [List.length_cons] at hlen
            omega)]
    simp

/-- Newline step: terminate and handle the accumulated line, clearing the
buffer. -/
theorem processChar_newline {σ : Type} (handle : σ → Msg → σ) (r : BridgeRun σ) :
    processChar handle r '\n' =
      ⟨[], (handleLine handle r.buffer r.st r.diags).1,
           (handleLine handle r.buffer r.st r.diags).2⟩ := rfl

/-- Evaluation of `handleLine` on a well-delimited frame
`'>' data '*' c1 c2` (c1, c2 not the delimiter): the direction marker and
checksum-field checks pass, the CRC is recomputed over exactly `data` (the
bytes before the last delimiter) and compared against the transmitted pair,
and on match the frame is split at the first separator. -/
theorem handleLine_framed {σ : Type} (handle : σ → Msg → σ) (st : σ)
    (diags : List String) (data : List Char) (c1 c2 : Char)
    (hd : data ≠ []) (h1 : c1 ≠ '*') (h2 : c2 ≠ '*') :
    handleLine handle ('>' :: (data ++ '*' :: [c1, c2])) st diags =
      if strtoul16 [c1, c2] % 256 ≠ crc8 data then (st, diags ++ ["CRC FAIL"])
      else if indexOfC '\t' data > 0 then
        (handle st (data.take (indexOfC '\t' data).toNat,
                    data.drop ((indexOfC '\t' data).toNat + 1)), diags)
      else (st, diags) := by
  have hstar : '*' ∉ [c1, c2] := by
    intro hmem
    rcases List.mem_cons.mp hmem with h | h
    · exact h1 h.symm
    · rcases List.mem_cons.mp h with h' | h'
      · exact h2 h'.symm
      · exact absurd h' (List.not_mem_nil '*')
  have hidx : lastIndexOfC '*' (data ++ '*' :: [c1, c2]) = (data.length : Int) :=
    lastIndexOfC_append_cons '*' data [c1, c2] hstar
  have hdl : 0 < data.length := List.length_pos.mpr hd
  unfold handleLine
  rw [if_pos (by constructor <;> simp [MSG_FROM_PI])]
  simp only [MSG_CRC_DELIM, MSG_SEPARATOR, List.tail_cons]
  rw [hidx]
  rw [if_neg ?hframe]
  case hframe =>
    push_neg
    constructor
    · omega
    · simp only [List.length_append, List.length_cons, List.length_nil]
      push_cast
      omega
  have htake : List.take ((data.length : Int)).toNat (data ++ '*' :: [c1, c2]) = data := by
    simp only [Int.toNat_natCast]
    exact List.take_left data _
  have hdrop : List.drop (((data.length : Int)).toNat + 1) (data ++ '*' :: [c1, c2]) = [c1, c2] := by
    simp only [Int.toNat_natCast]
    have hsplit : data ++ '*' :: [c1, c2] = (data ++ ['*']) ++ [c1, c2] := by simp
    have hlen1 : data.length + 1 = (data ++ ['*']).length := by simp
    rw [hsplit, hlen1]
    exact List.drop_left _ _
  rw [htake, hdrop]

/-! Shared lemmas about the parameter registry. -/

/-- Every registry setter is idempotent (each one overwrites a single
field). -/
theorem paramMap_set_set (m : ParamMapping) (hm : m ∈ paramMap) :
    ∀ (st : TeensyMenu) (n : Nat), m.set (m.set st n) n = m.set st n := by
  fin_cases hm <;> intro st n <;> rfl

/-- Reading back the field just written by a registry setter yields the
written value. -/
theorem paramMap_get_set (m : ParamMapping) (hm : m ∈ paramMap) :
    ∀ (st : TeensyMenu) (n : Nat), m.get (m.set st n) = n := by
  fin_cases hm <;> intro st n <;> rfl

/-- Narrowing an `int` to `uint8_t` always lands in [0, 255]. -/
theorem u8ofInt_le (v : Int) : u8ofInt v ≤ 255 := by
  unfold u8ofInt
  have h1 : v % 256 < 256 := Int.emod_lt_of_pos v (by norm_num)
  omega

/-! ## C10 -/

/-- C10: the inbound host-link decode loops of the two bridge variants are
observationally equivalent — for every starting state and every input byte
sequence they perform the same carriage-return skipping, 512-byte overflow
reset, marker check, last-occurrence checksum parse, CRC comparison and
first-separator split, dispatching identical (topic, payload) pairs and
producing identical buffers and diagnostics. -/
theorem bridgeProcess_variants_equiv {σ : Type} (handle : σ → Msg → σ)
    (r : BridgeRun σ) (input : List Char) :
    mqttBridgeProcessV1 handle r input = mqttBridgeProcess handle r input := rfl

/-! ## C8 -/

/-- C8 counterexample: at elapsed time exactly 5000 ms the query still
reports the host alive, contradicting the claim that it returns alive
exactly when the elapsed time is strictly below 5000 ms. -/
theorem isPiAlive_boundary_counterexample :
    (mqttBridgeIsPiAlive ⟨true, 0⟩ 5000).1 = true ∧ ¬(5000 - 0 < PI_TIMEOUT) := by
  constructor
  · rfl
  · decide

/-- C8 (amended): the host-liveness query returns alive exactly when the
alive flag is set (a host message has been received) and the elapsed time
since the last host message is at most 5000 ms (the code clears the flag
only when elapsed exceeds the timeout); the clearing happens lazily inside
the query — the stored flag after the query equals the returned value. -/
theorem isPiAlive_spec (s : PiLiveness) (now : Nat)
    (h : s.lastPiHeartbeat ≤ now) :
    ((mqttBridgeIsPiAlive s now).1 = true ↔
      (s.piAlive = true ∧ now - s.lastPiHeartbeat ≤ PI_TIMEOUT)) ∧
    (mqttBridgeIsPiAlive s now).2.piAlive = (mqttBridgeIsPiAlive s now).1 := by
  unfold mqttBridgeIsPiAlive
  split
  · rename_i hcond
    obtain ⟨ha, hgt⟩ := hcond
    refine ⟨⟨fun hf => absurd hf (by simp), fun h2 => absurd h2.2 (by omega)⟩, rfl⟩
  · rename_i hcond
    push_neg at hcond
    exact ⟨⟨fun ht => ⟨ht, hcond ht⟩, fun h2 => h2.1⟩, rfl⟩

/-- C8 witness: a host message stamped at time 0 queried at 3000 ms is
reported alive. -/
theorem isPiAlive_spec_witness :
    ((mqttBridgeIsPiAlive ⟨true, 0⟩ 3000).1 = true ↔
      ((true : Bool) = true ∧ 3000 - 0 ≤ PI_TIMEOUT)) ∧
    (mqttBridgeIsPiAlive ⟨true, 0⟩ 3000).2.piAlive = (mqttBridgeIsPiAlive ⟨true, 0⟩ 3000).1 :=
  isPiAlive_spec ⟨true, 0⟩ 3000 (by decide)

/-! ## C1 -/

/-- C1 counterexample: the host "menu set" message (param "face",
value 200) stores 200 into MenuState although the descriptor's maxValue is
8 — the stored value is not clamped into [0, maxValue]. -/
theorem menu_set_no_clamp_counterexample :
    (processMenuSet {} "face" 200).1.face = 200 ∧
    (findByCamel "face").map (fun m => m.maxVal) = some 8 ∧
    ¬((processMenuSet {} "face" 200).1.face ≤ 8) := by
  refine ⟨rfl, rfl, ?_⟩
  show ¬((200 : Nat) ≤ 8)
  decide

/-- C1 (amended): for every host "menu set" message and every
companion-device "TOKEN=value" line whose parameter is found in the
registry, the value is stored into MenuState without clamping, as the
`int`-to-`uint8_t` narrowing of the parsed value (value mod 256): the
stored value always lies in [0, 255] but may exceed descriptor.maxValue. -/
theorem menu_store_is_mod256 (st st2 : TeensyMenu) (p : String) (v : Int)
    (m m2 : ParamMapping) (tok rest : List Char)
    (h1 : findByCamel p = some m)
    (h2 : findByProto (trimC tok) = some m2)
    (hOK : startsWithC (tok ++ '=' :: rest) ("OK SAVED".toList) = false)
    (hERR : startsWithC (tok ++ '=' :: rest) ("ERR".toList) = false)
    (hEq : '=' ∉ tok) (htok : tok ≠ []) :
    m.get (processMenuSet st p v).1 = u8ofInt v ∧ u8ofInt v ≤ 255 ∧
    m2.get (handleTeensyResponseMenu st2 (tok ++ '=' :: rest)) = u8ofInt (atol rest) := by
  refine ⟨?_, u8ofInt_le v, ?_⟩
  · have hm : m ∈ paramMap := by
      unfold findByCamel at h1
      exact List.mem_of_find?_eq_some h1
    simp only [processMenuSet, h1]
    exact paramMap_get_set m hm st (u8ofInt v)
  · have hm2 : m2 ∈ paramMap := by
      unfold findByProto at h2
      exact List.mem_of_find?_eq_some h2
    have hidx : indexOfC '=' (tok ++ '=' :: rest) = (tok.length : Int) :=
      indexOfC_append_cons '=' tok rest hEq
    have htake : (tok ++ '=' :: rest).take tok.length = tok := List.take_left tok _
    have hdrop : (tok ++ '=' :: rest).drop (tok.length + 1) = rest := by
      have : tok ++ '=' :: rest = (tok ++ ['=']) ++ rest := by simp
      rw [this]
      have hl : (tok ++ ['=']).length = tok.length + 1 := by simp
      rw [← hl]
      exact List.drop_left _ _
    have hBooped : trimC tok ≠ "BOOPED".toList := by
      intro hcontra
      rw [hcontra] at h2
      have : findByProto ("BOOPED".toList) = none := by rfl
      rw [this] at h2
      exact Option.noConfusion h2
    unfold handleTeensyResponseMenu
    rw [hOK]
    simp only [Bool.false_eq_true, if_false]
    rw [hERR]
    simp only [Bool.false_eq_true, if_false]
    rw [hidx]
    have hpos : (tok.length : Int) > 0 := by
      have : tok.length ≠ 0 := fun hc => htok (List.length_eq_zero.mp hc)
      omega
    rw [if_pos hpos]
    simp only [Int.toNat_natCast]
    rw [htake, hdrop]
    rw [if_neg hBooped, h2]
    exact paramMap_get_set m2 hm2 st2 (u8ofInt (atol rest))

/-- C1 (amended) witness: the menu-set message (face, 200) and the
companion line "FACE=200" both store 200 = 200 mod 256 (exceeding
maxValue 8). -/
theorem menu_store_is_mod256_witness :
    (⟨"face", "FACE", (·.face), fun s n => {s with face := n}, 8,
        some faceLabels⟩ : ParamMapping).get (processMenuSet {} "face" 200).1
      = u8ofInt 200 ∧
    u8ofInt 200 ≤ 255 ∧
    (⟨"face", "FACE", (·.face), fun s n => {s with face := n}, 8,
        some faceLabels⟩ : ParamMapping).get
        (handleTeensyResponseMenu {} ("FACE".toList ++ '=' :: "200".toList))
      = u8ofInt (atol "200".toList) :=
  menu_store_is_mod256 {} {} "face" 200 _ _ "FACE".toList "200".toList
    rfl rfl rfl rfl (by decide) (by decide)

/-! ## C7 -/

/-- C7: processing the same well-formed "menu set" message twice in
succession yields a MenuState identical to processing it once, and the
second processing emits exactly the same companion-device command as the
first. -/
theorem menu_set_idempotent (st : TeensyMenu) (p : String) (v : Int) :
    (processMenuSet (processMenuSet st p v).1 p v).1 = (processMenuSet st p v).1 ∧
    (processMenuSet (processMenuSet st p v).1 p v).2 = (processMenuSet st p v).2 := by
  cases h : findByCamel p with
  | none => simp [processMenuSet, h]
  | some m =>
    have hm : m ∈ paramMap := by
      unfold findByCamel at h
      exact List.mem_of_find?_eq_some h
    constructor
    · simp only [processMenuSet, h]
      exact paramMap_set_set m hm st (u8ofInt v)
    · simp [processMenuSet, h]

/-! ## C6 -/

/-- C6: whenever the startle flag is active, the computed target frame is
the rotating rainbow sweep across every strip, regardless of colorMode,
hueFront, hueBack and the expression override — the startle branch takes
priority over all other rendering modes. -/
theorem startle_priority (st : LedState) (now : Nat)
    (hb : st.targetBooped = true) :
    computeTargetFrame st now = rainbowSweepFrame now := by
  simp [computeTargetFrame, rainbowSweepFrame, hb]

/-- C6 witness: a startled state with a solid colorMode, distinct hues and
an expression override still renders the rainbow sweep. -/
theorem startle_priority_witness :
    computeTargetFrame
      {targetBooped := true, targetColor := 3, targetHueF := 7,
       targetHueB := 9, targetFace := 5} 1234
      = rainbowSweepFrame 1234 :=
  startle_priority _ 1234 rfl

/-! ## C4 -/

/-- Newline-free input is only accumulated: the router state and
diagnostics are untouched, and the buffer length follows the 513-cycle of
the overflow reset (the buffer is discarded exactly when appending a byte
makes it exceed 512). -/
theorem mqttBridgeProcess_no_newline {σ : Type} (handle : σ → Msg → σ)
    (input : List Char) :
    ∀ (b : List Char) (s0 : σ) (d : List String), '\n' ∉ input → b.length ≤ 512 →
    (mqttBridgeProcess handle ⟨b, s0, d⟩ input).st = s0 ∧
    (mqttBridgeProcess handle ⟨b, s0, d⟩ input).diags = d ∧
    (mqttBridgeProcess handle ⟨b, s0, d⟩ input).buffer.length =
      (b.length + (input.filter (fun c => c ≠ '\r')).length) % 513 := by
  induction input with
  | nil =>
    intro b s0 d _ hb
    refine ⟨rfl, rfl, ?_⟩
    show b.length = (b.length + ([] : List Char).length) % 513
    simp only [List.length_nil, Nat.add_zero]
    exact (Nat.mod_eq_of_lt (by omega)).symm
  | cons c cs ih =>
    intro b s0 d hn hb
    have hcn : c ≠ '\n' := fun hc => hn (hc ▸ List.mem_cons_self c cs)
    have hcs : '\n' ∉ cs := fun hc => hn (List.mem_cons_of_mem c hc)
    rw [mqttBridgeProcess_cons]
    by_cases hcr : c = '\r'
    · have step : processChar handle ⟨b, s0, d⟩ c = ⟨b, s0, d⟩ := by
        unfold processChar
        rw [if_neg hcn, if_neg (by simp [hcr])]
      rw [step]
      obtain ⟨e1, e2, e3⟩ := ih b s0 d hcs hb
      refine ⟨e1, e2, ?_⟩
      rw [e3]
      congr 2
      simp [List.filter_cons, hcr]
    · by_cases hcap : b.length + 1 > 512
      · have step : processChar handle ⟨b, s0, d⟩ c = ⟨[], s0, d⟩ := by
          unfold processChar
          rw [if_neg hcn, if_pos hcr,
              if_pos (by simp only [List.length_append, List.length_cons,
                List.length_nil]; omega)]
        rw [step]
        obtain ⟨e1, e2, e3⟩ := ih [] s0 d hcs (by simp)
        refine ⟨e1, e2, ?_⟩
        rw [e3]
        have hb513 : b.length = 512 := by omega
        have hfl : ((c :: cs).filter (fun x => x ≠ '\r')).length =
            (cs.filter (fun x => x ≠ '\r')).length + 1 := by
          simp [List.filter_cons, hcr]
        rw [hfl, hb513]
        simp only [List.length_nil, Nat.zero_add]
        have : 512 + ((cs.filter (fun x => x ≠ '\r')).length + 1) =
            513 + (cs.filter (fun x => x ≠ '\r')).length := by omega
        rw [this, Nat.add_mod_left]
      · have step : processChar handle ⟨b, s0, d⟩ c = ⟨b ++ [c], s0, d⟩ := by
          unfold processChar
          rw [if_neg hcn, if_pos hcr,
              if_neg (by simp only [List.length_append, List.length_cons,
                List.length_nil]; omega)]
        rw [step]
        obtain ⟨e1, e2, e3⟩ := ih (b ++ [c]) s0 d hcs
          (by simp only [List.length_append, List.length_cons, List.length_nil]; omega)
        refine ⟨e1, e2, ?_⟩
        rw [e3]
        have hfl : ((c :: cs).filter (fun x => x ≠ '\r')).length =
            (cs.filter (fun x => x ≠ '\r')).length + 1 := by
          simp [List.filter_cons, hcr]
        rw [hfl]
        congr 1
        simp only [List.length_append, List.length_cons, List.length_nil]
        omega

/-- C4: for every input byte sequence without a newline — in particular one
whose accumulation exceeds 512 bytes — nothing is ever dispatched to the
router (the router state is unchanged for every possible handler), no
diagnostic is printed, and the accumulation buffer is reset at the 512-byte
cap, so its length always stays at most 512 and equals the count of
non-carriage-return bytes modulo 513. -/
theorem overflow_resets_no_dispatch {σ : Type} (handle : σ → Msg → σ) (s0 : σ)
    (input : List Char) (h : '\n' ∉ input) :
    (mqttBridgeProcess handle ⟨[], s0, []⟩ input).st = s0 ∧
    (mqttBridgeProcess handle ⟨[], s0, []⟩ input).diags = [] ∧
    (mqttBridgeProcess handle ⟨[], s0, []⟩ input).buffer.length =
      (input.filter (fun c => c ≠ '\r')).length % 513 ∧
    (mqttBridgeProcess handle ⟨[], s0, []⟩ input).buffer.length ≤ 512 := by
  obtain ⟨e1, e2, e3⟩ := mqttBridgeProcess_no_newline handle input [] s0 [] h (by simp)
  refine ⟨e1, e2, ?_, ?_⟩
  · rw [e3]
    simp
  · rw [e3]
    simp only [List.length_nil, Nat.zero_add]
    have := Nat.mod_lt ((input.filter (fun c => c ≠ '\r')).length) (y := 513) (by norm_num)
    omega

/-- C4 witness: 600 bytes with no newline dispatch nothing and leave an
87-byte buffer (the cap reset fired once at 513). -/
theorem overflow_resets_no_dispatch_witness :
    (mqttBridgeProcess dispatchLog ⟨[], [], []⟩ (List.replicate 600 'A')).st = [] ∧
    (mqttBridgeProcess dispatchLog ⟨[], [], []⟩ (List.replicate 600 'A')).diags = [] ∧
    (mqttBridgeProcess dispatchLog ⟨[], [], []⟩ (List.replicate 600 'A')).buffer.length =
      ((List.replicate 600 'A').filter (fun c => c ≠ '\r')).length % 513 ∧
    (mqttBridgeProcess dispatchLog ⟨[], [], []⟩ (List.replicate 600 'A')).buffer.length ≤ 512 :=
  overflow_resets_no_dispatch dispatchLog [] (List.replicate 600 'A')
    (fun h => absurd (List.eq_of_mem_replicate h) (by decide))

/-! ## C3 -/

/-- C3: a newline-terminated inbound frame with the inbound marker and a
well-formed checksum field whose two trailing hex digits do not equal the
CRC-8 of the bytes before the last checksum delimiter is dropped: the
"CRC FAIL" diagnostic is emitted, nothing is dispatched (so no router state
— MenuState, telemetry cache, fan config, liveness stamp — is mutated, for
every possible handler), and the input buffer is cleared before the next
byte is processed. -/
theorem crc_mismatch_drops {σ : Type} (handle : σ → Msg → σ) (s0 : σ)
    (data : List Char) (c1 c2 : Char)
    (hd : data ≠ [])
    (hchars : ∀ c ∈ data, c ≠ '\n' ∧ c ≠ '\r')
    (hx1 : isHexDigit c1 = true) (hx2 : isHexDigit c2 = true)
    (hlen : data.length ≤ 508)
    (hne : strtoul16 [c1, c2] % 256 ≠ crc8 data) :
    mqttBridgeProcess handle ⟨[], s0, []⟩ (('>' :: (data ++ '*' :: [c1, c2])) ++ ['\n'])
      = ⟨[], s0, ["CRC FAIL"]⟩ := by
  obtain ⟨h1s, h1n, h1r⟩ := isHexDigit_ne c1 hx1
  obtain ⟨h2s, h2n, h2r⟩ := isHexDigit_ne c2 hx2
  have hacc : mqttBridgeProcess handle ⟨[], s0, []⟩ ('>' :: (data ++ '*' :: [c1, c2]))
      = ⟨[] ++ ('>' :: (data ++ '*' :: [c1, c2])), s0, []⟩ := by
    apply mqttBridgeProcess_accum
    · intro c hc
      simp only [List.mem_cons, List.mem_append] at hc
      rcases hc with rfl | hc
      · exact ⟨by decide, by decide⟩
      rcases hc with hcd | hc
      · exact hchars c hcd
      rcases hc with rfl | hc
      · exact ⟨by decide, by decide⟩
      rcases hc with rfl | hc
      · exact ⟨h1n, h1r⟩
      rcases hc with rfl | hc
      · exact ⟨h2n, h2r⟩
      · exact absurd hc (List.not_mem_nil c)
    · simp only [List.length_nil, List.length_cons, List.length_append, Nat.zero_add]
      omega
  rw [mqttBridgeProcess_append, hacc]
  show processChar handle ⟨[] ++ ('>' :: (data ++ '*' :: [c1, c2])), s0, []⟩ '\n' = _
  rw [List.nil_append, processChar_newline]
  rw [handleLine_framed handle s0 [] data c1 c2 hd h1s h2s]
  rw [if_pos hne]
  rfl

/-- C3 witness: a frame carrying "t\tp" with transmitted checksum "00"
(the true CRC-8 is 0x26) is dropped with the diagnostic, nothing
dispatched, buffer cleared. -/
theorem crc_mismatch_drops_witness :
    mqttBridgeProcess dispatchLog ⟨[], [], []⟩
        (('>' :: ("t\tp".toList ++ '*' :: ['0', '0'])) ++ ['\n'])
      = ⟨[], [], ["CRC FAIL"]⟩ :=
  crc_mismatch_drops dispatchLog [] "t\tp".toList '0' '0'
    (by decide) (by decide) (by decide) (by decide) (by decide) (by decide)

/-! ## C2 -/

/-- C2 (amended): for every (topic, payload) pair free of embedded tab,
newline and carriage return, with a nonempty topic and the whole frame
within the 512-byte accumulation cap, the frame emitted by the publisher —
direction marker, topic, tab, payload, '*', two uppercase hex CRC digits,
newline — parsed back with the inbound marker passes the checksum
comparison (the CRC-8/SMBUS recomputed over exactly topic SEP payload,
marker and terminator excluded, equals the transmitted hex value) and
dispatches exactly (topic, payload), with no diagnostic and a cleared
buffer. -/
theorem crc_roundtrip {σ : Type} (handle : σ → Msg → σ) (s0 : σ)
    (topic payload : List Char)
    (ht : topic ≠ [])
    (htc : ∀ c ∈ topic, c ≠ '\t' ∧ c ≠ '\n' ∧ c ≠ '\r')
    (hpc : ∀ c ∈ payload, c ≠ '\t' ∧ c ≠ '\n' ∧ c ≠ '\r')
    (hlen : topic.length + payload.length ≤ 507) :
    mqttBridgeProcess handle ⟨[], s0, []⟩ (('>' :: publishBody topic payload) ++ ['\n'])
      = ⟨[], handle s0 (topic, payload), []⟩ := by
  have hcrc : crc8 (topic ++ '\t' :: payload) ≤ 255 := crc8_le _
  have hpb : publishBody topic payload =
      (topic ++ '\t' :: payload) ++ '*' ::
        [hexChars.getD (crc8 (topic ++ '\t' :: payload) / 16) '0',
         hexChars.getD (crc8 (topic ++ '\t' :: payload) % 16) '0'] := rfl
  have hx1 : isHexDigit (hexChars.getD (crc8 (topic ++ '\t' :: payload) / 16) '0') = true :=
    hexChars_getD_isHex _
  have hx2 : isHexDigit (hexChars.getD (crc8 (topic ++ '\t' :: payload) % 16) '0') = true :=
    hexChars_getD_isHex _
  obtain ⟨h1s, h1n, h1r⟩ := isHexDigit_ne _ hx1
  obtain ⟨h2s, h2n, h2r⟩ := isHexDigit_ne _ hx2
  have hd : topic ++ '\t' :: payload ≠ [] := by
    cases topic <;> simp
  have hacc : mqttBridgeProcess handle ⟨[], s0, []⟩
      ('>' :: ((topic ++ '\t' :: payload) ++ '*' ::
        [hexChars.getD (crc8 (topic ++ '\t' :: payload) / 16) '0',
         hexChars.getD (crc8 (topic ++ '\t' :: payload) % 16) '0']))
      = ⟨[] ++ ('>' :: ((topic ++ '\t' :: payload) ++ '*' ::
          [hexChars.getD (crc8 (topic ++ '\t' :: payload) / 16) '0',
           hexChars.getD (crc8 (topic ++ '\t' :: payload) % 16) '0'])), s0, []⟩ := by
    apply mqttBridgeProcess_accum
    · intro c hc
      simp only [List.mem_cons, List.mem_append] at hc
      rcases hc with rfl | hc
      · exact ⟨by decide, by decide⟩
      rcases hc with hcd | hc
      · rcases hcd with hct | hcd
        · exact (htc c hct).2
        · rcases hcd with rfl | hcp
          · exact ⟨by decide, by decide⟩
          · exact (hpc c hcp).2
      rcases hc with rfl | hc
      · exact ⟨by decide, by decide⟩
      rcases hc with rfl | hc
      · exact ⟨h1n, h1r⟩
      rcases hc with rfl | hc
      · exact ⟨h2n, h2r⟩
      · exact absurd hc (List.not_mem_nil c)
    · simp only [List.length_nil, List.length_cons, List.length_append, Nat.zero_add]
      omega
  rw [hpb, mqttBridgeProcess_append, hacc]
  show processChar handle
      ⟨[] ++ ('>' :: ((topic ++ '\t' :: payload) ++ '*' ::
        [hexChars.getD (crc8 (topic ++ '\t' :: payload) / 16) '0',
         hexChars.getD (crc8 (topic ++ '\t' :: payload) % 16) '0'])), s0, []⟩ '\n' = _
  rw [List.nil_append, processChar_newline]
  rw [handleLine_framed handle s0 [] (topic ++ '\t' :: payload) _ _ hd h1s h2s]
  have hexp : strtoul16
      [hexChars.getD (crc8 (topic ++ '\t' :: payload) / 16) '0',
       hexChars.getD (crc8 (topic ++ '\t' :: payload) % 16) '0'] % 256 =
      crc8 (topic ++ '\t' :: payload) := by
    rw [strtoul16_hexPair _ (by omega)]
    exact Nat.mod_eq_of_lt (by omega)
  rw [if_neg (by rw [hexp]; exact not_not_intro rfl)]
  have hsep : indexOfC '\t' (topic ++ '\t' :: payload) = (topic.length : Int) :=
    indexOfC_append_cons '\t' topic payload (fun hmem => (htc '\t' hmem).1 rfl)
  rw [hsep]
  rw [if_pos (by exact_mod_cast List.length_pos.mpr ht)]
  have htake : List.take ((topic.length : Int)).toNat (topic ++ '\t' :: payload) = topic := by
    simp only [Int.toNat_natCast]
    exact List.take_left topic _
  have hdrop : List.drop (((topic.length : Int)).toNat + 1) (topic ++ '\t' :: payload)
      = payload := by
    simp only [Int.toNat_natCast]
    have hsplit : topic ++ '\t' :: payload = (topic ++ ['\t']) ++ payload := by simp
    have hlen1 : topic.length + 1 = (topic ++ ['\t']).length := by simp
    rw [hsplit, hlen1]
    exact List.drop_left _ _
  rw [htake, hdrop]

/-- C2 witness: the frame for topic "t", payload "p" (CRC 0x26) round-trips
and dispatches ("t", "p"). -/
theorem crc_roundtrip_witness :
    mqttBridgeProcess dispatchLog ⟨[], [], []⟩
        (('>' :: publishBody "t".toList "p".toList) ++ ['\n'])
      = ⟨[], dispatchLog [] ("t".toList, "p".toList), []⟩ :=
  crc_roundtrip dispatchLog [] "t".toList "p".toList
    (by decide) (by decide) (by decide) (by decide)

set_option maxRecDepth 8192 in
/-- C2 counterexample: for topic "t" and payload consisting of a single
carriage return — a pair free of embedded tab and newline — the emitted
frame does not pass the checksum comparison when parsed back: the inbound
loop strips the carriage return before the CRC is recomputed, so the frame
is dropped with "CRC FAIL" and nothing is dispatched. -/
theorem crc_roundtrip_cr_counterexample :
    mqttBridgeProcess dispatchLog ⟨[], [], []⟩
        (('>' :: publishBody "t".toList "\r".toList) ++ ['\n'])
      = ⟨[], [], ["CRC FAIL"]⟩ := by decide

/-! ## C5 -/

/-- Blending with amount 0 returns the first (snapshot) byte whenever the
second operand is a byte. -/
theorem blend8_zero (a b : Nat) (hb : b ≤ 255) : blend8 a b 0 = a := by
  unfold blend8
  have h1 : a * (255 - 0) + a + b * 0 + b = 256 * a + b := by omega
  rw [h1, Nat.mul_add_div (by norm_num), Nat.div_eq_of_lt (by omega)]
  omega

/-- Pixel-wise blending with amount 0 returns the snapshot pixel. -/
theorem blendPx_zero (p q : CRGBm) (hq : q.r ≤ 255 ∧ q.g ≤ 255 ∧ q.b ≤ 255) :
    blendPx p q 0 = p := by
  obtain ⟨h1, h2, h3⟩ := hq
  unfold blendPx
  rw [blend8_zero _ _ h1, blend8_zero _ _ h2, blend8_zero _ _ h3]

/-- Frame-wise blending with amount 0 returns the snapshot frame. -/
theorem zipWith_blendPx_zero (xs ys : List CRGBm) (hlen : ys.length = xs.length)
    (hwf : ∀ p ∈ ys, p.r ≤ 255 ∧ p.g ≤ 255 ∧ p.b ≤ 255) :
    List.zipWith (fun s c => blendPx s c 0) xs ys = xs := by
  induction xs generalizing ys with
  | nil =>
    cases ys with
    | nil => rfl
    | cons y ys' => exact absurd hlen (by simp)
  | cons x xs' ih =>
    cases ys with
    | nil => exact absurd hlen (by simp)
    | cons y ys' =>
      simp only [List.zipWith_cons_cons]
      rw [blendPx_zero x y (hwf y (List.mem_cons_self y ys'))]
      rw [ih ys' (by simpa using hlen) (fun p hp => hwf p (List.mem_cons_of_mem y hp))]

/-- Casting the rational 0 to uint8 gives 0. -/
theorem u8castQ_zero : u8castQ 0 = 0 := by
  unfold u8castQ
  norm_num

/-- C5: for a crossfade started by `beginTransition` from a displayed frame
`st.leds` toward brightness `newBright`: sampling `ledStripsUpdate` at
elapsed time 0 yields exactly the previously displayed frame with the
previous output brightness (the cosine-eased blend ratio at progress 0 is
(1 - cos 0)/2 = 0), and sampling at any time at least the 667 ms duration
yields exactly the newly computed target frame with output brightness equal
to the target brightness, the transition deactivated and no residual
blending. -/
theorem transition_endpoints (cosPi : ℚ → ℚ) (hcos : cosPi 0 = 1)
    (st : LedState) (newBright t0 now2 : Nat) (computed : List CRGBm)
    (hready : st.ready = true)
    (hob : st.outputBright ≤ 255)
    (hlen : computed.length = st.leds.length)
    (hwf : ∀ p ∈ computed, p.r ≤ 255 ∧ p.g ≤ 255 ∧ p.b ≤ 255)
    (h2 : t0 + TRANSITION_MS ≤ now2) :
    ((ledStripsUpdate cosPi computed (beginTransition st newBright t0) t0).leds = st.leds ∧
     (ledStripsUpdate cosPi computed (beginTransition st newBright t0) t0).outputBright
       = st.outputBright) ∧
    ((ledStripsUpdate cosPi computed (beginTransition st newBright t0) now2).leds = computed ∧
     (ledStripsUpdate cosPi computed (beginTransition st newBright t0) now2).outputBright
       = newBright ∧
     (ledStripsUpdate cosPi computed (beginTransition st newBright t0) now2).transActive
       = false) := by
  obtain ⟨tc, thf, thb, tb, tf, bo, trf, trt, trs, tra, snap, ob, rdy, nrd, ledsv⟩ := st
  simp only at hready hob hlen hwf
  subst hready
  constructor
  · unfold ledStripsUpdate beginTransition
    simp only
    rw [if_neg (by simp)]
    rw [if_neg (by rintro ⟨-, hfalse, -⟩; simp at hfalse)]
    rw [if_pos trivial]
    rw [if_neg (by rw [Nat.sub_self]; unfold TRANSITION_MS; omega)]
    have hr : cosineEase cosPi ((((t0 - t0 : Nat) : ℚ)) / ((TRANSITION_MS : Nat) : ℚ)) = 0 := by
      rw [Nat.sub_self]
      unfold cosineEase
      norm_num [hcos]
    rw [hr]
    simp only [zero_mul, mul_zero, u8castQ_zero]
    constructor
    · show List.zipWith (fun s c => blendPx s c 0) ledsv computed = ledsv
      exact zipWith_blendPx_zero ledsv computed hlen hwf
    · show (ob + 0) % 256 = ob
      omega
  · unfold ledStripsUpdate beginTransition
    simp only
    rw [if_neg (by simp)]
    rw [if_neg (by rintro ⟨-, hfalse, -⟩; simp at hfalse)]
    rw [if_pos trivial]
    rw [if_pos (by omega)]
    exact ⟨rfl, rfl, rfl⟩

/-- C5 witness: a one-pixel transition from displayed pixel (1,2,3) toward
computed pixel (9,8,7) and brightness 150: at time 0 the output is the old
pixel at the old brightness; at 667 ms it is the computed pixel at
brightness 150 with the transition inactive. -/
theorem transition_endpoints_witness :
    ((ledStripsUpdate (fun _ => 1) [⟨9, 8, 7⟩]
        (beginTransition {ready := true, leds := [⟨1, 2, 3⟩]} 150 0) 0).leds = [⟨1, 2, 3⟩] ∧
     (ledStripsUpdate (fun _ => 1) [⟨9, 8, 7⟩]
        (beginTransition {ready := true, leds := [⟨1, 2, 3⟩]} 150 0) 0).outputBright = 75) ∧
    ((ledStripsUpdate (fun _ => 1) [⟨9, 8, 7⟩]
        (beginTransition {ready := true, leds := [⟨1, 2, 3⟩]} 150 0) 667).leds = [⟨9, 8, 7⟩] ∧
     (ledStripsUpdate (fun _ => 1) [⟨9, 8, 7⟩]
        (beginTransition {ready := true, leds := [⟨1, 2, 3⟩]} 150 0) 667).outputBright = 150 ∧
     (ledStripsUpdate (fun _ => 1) [⟨9, 8, 7⟩]
        (beginTransition {ready := true, leds := [⟨1, 2, 3⟩]} 150 0) 667).transActive
       = false) :=
  transition_endpoints (fun _ => 1) rfl {ready := true, leds := [⟨1, 2, 3⟩]} 150 0 667
    [⟨9, 8, 7⟩] rfl (by norm_num) rfl (by decide) (by decide)

/-! ## C9 -/

/-- Eased interpolation between two capped brightness values stays capped:
the C expression `transFromBright + (uint8_t)((to - from) * ratio)` (mod
256) with ratio in [0, 1] lies between min and max of the endpoints. -/
theorem interpBright_le (fb tb : Nat) (r : ℚ) (hf : fb ≤ 150) (ht : tb ≤ 150)
    (hr0 : 0 ≤ r) (hr1 : r ≤ 1) :
    (fb + u8castQ (((tb : ℚ) - (fb : ℚ)) * r)) % 256 ≤ 150 := by
  by_cases hcmp : fb ≤ tb
  · have hd0 : (0 : ℚ) ≤ ((tb : ℚ) - (fb : ℚ)) * r := by
      apply mul_nonneg _ hr0
      have : (fb : ℚ) ≤ (tb : ℚ) := by exact_mod_cast hcmp
      linarith
    have hd1 : ((tb : ℚ) - (fb : ℚ)) * r ≤ ((tb - fb : Nat) : ℚ) := by
      have hsub : ((tb - fb : Nat) : ℚ) = (tb : ℚ) - (fb : ℚ) := by
        push_cast [hcmp]
        ring
      rw [hsub]
      have : (fb : ℚ) ≤ (tb : ℚ) := by exact_mod_cast hcmp
      nlinarith
    have hfl : Int.floor (((tb : ℚ) - (fb : ℚ)) * r) ≤ ((tb - fb : Nat) : Int) := by
      have := Int.floor_mono hd1
      rwa [Int.floor_natCast] at this
    have htn : (Int.floor (((tb : ℚ) - (fb : ℚ)) * r)).toNat ≤ tb - fb :=
      Int.toNat_le.mpr hfl
    unfold u8castQ
    have hsmall : (Int.floor (((tb : ℚ) - (fb : ℚ)) * r)).toNat % 256 ≤ tb - fb := by
      have := Nat.mod_le (Int.floor (((tb : ℚ) - (fb : ℚ)) * r)).toNat 256
      omega
    have : fb + (Int.floor (((tb : ℚ) - (fb : ℚ)) * r)).toNat % 256 ≤ 150 := by omega
    omega
  · have hd : ((tb : ℚ) - (fb : ℚ)) * r ≤ 0 := by
      apply mul_nonpos_of_nonpos_of_nonneg _ hr0
      have : (tb : ℚ) ≤ (fb : ℚ) := by exact_mod_cast (by omega : tb ≤ fb)
      linarith
    have hfl : Int.floor (((tb : ℚ) - (fb : ℚ)) * r) ≤ 0 := by
      have := Int.floor_mono hd
      simpa using this
    have htn : (Int.floor (((tb : ℚ) - (fb : ℚ)) * r)).toNat = 0 :=
      Int.toNat_eq_zero.mpr hfl
    unfold u8castQ
    rw [htn]
    omega

/-- Eased blend ratio derived from a cosine within [-1, 1] lies in [0, 1]. -/
theorem cosineEase_mem (cosPi : ℚ → ℚ) (hc1 : ∀ t, -1 ≤ cosPi t)
    (hc2 : ∀ t, cosPi t ≤ 1) (t : ℚ) :
    0 ≤ cosineEase cosPi t ∧ cosineEase cosPi t ≤ 1 := by
  unfold cosineEase
  constructor
  · have := hc2 t
    linarith
  · have := hc1 t
    linarith

/-- C9: `ledStripsSetColor` clamps the requested brightness to at most
MAX_BRIGHTNESS = 150 before storing it, and the brightness-cap invariant —
target brightness, both crossfade endpoints and the output brightness
applied to the pixel array all at most 150 — holds initially and is
preserved by every animation-state operation, including the eased
brightness interpolation during transitions; so the applied brightness
never exceeds 150 even though the published schema advertises 254 for
"bright". -/
theorem brightness_capped (cosPi : ℚ → ℚ)
    (hc1 : ∀ t, -1 ≤ cosPi t) (hc2 : ∀ t, cosPi t ≤ 1)
    (st : LedState) (computed : List CRGBm)
    (c hf hb bright f now : Nat) (bo : Bool)
    (hinv : brightInv st) :
    brightInv ledStripsInitState ∧
    brightInv (ledStripsSetColor computed st c hf hb bright now) ∧
    (ledStripsSetColor computed st c hf hb bright now).targetBright ≤ MAX_BRIGHTNESS ∧
    brightInv (ledStripsSetFace st f now) ∧
    brightInv (ledStripsSetBooped st bo now) ∧
    brightInv (ledStripsUpdate cosPi computed st now) := by
  obtain ⟨h1, h2, h3, h4⟩ := hinv
  refine ⟨by decide, ?_, ?_, ?_, ?_, ?_⟩
  · unfold ledStripsSetColor beginTransition
    dsimp only
    split_ifs <;> (try dsimp only [brightInv]) <;> omega
  · unfold ledStripsSetColor beginTransition
    dsimp only
    split_ifs <;> (try dsimp only [brightInv]) <;> omega
  · unfold ledStripsSetFace beginTransition
    dsimp only
    split_ifs <;> (try dsimp only [brightInv]) <;> omega
  · unfold ledStripsSetBooped beginTransition
    dsimp only
    split_ifs <;> (try dsimp only [brightInv]) <;> omega
  · unfold ledStripsUpdate
    dsimp only
    split_ifs <;> (try dsimp only [brightInv])
    all_goals try omega
    refine ⟨h1, h2, h3, ?_⟩
    obtain ⟨hr0, hr1⟩ := cosineEase_mem cosPi hc1 hc2
      ((((now - st.transStart : Nat) : ℚ)) / ((TRANSITION_MS : Nat) : ℚ))
    exact interpBright_le st.transFromBright st.transToBright _ h2 h3 hr0 hr1

/-- C9 witness: from the initial state (all brightness fields 75) each
operation keeps the cap, with the constant cosine 1 as the easing input. -/
theorem brightness_capped_witness :
    brightInv ledStripsInitState ∧
    brightInv (ledStripsSetColor [] ledStripsInitState 1 2 3 254 0) ∧
    (ledStripsSetColor [] ledStripsInitState 1 2 3 254 0).targetBright ≤ MAX_BRIGHTNESS ∧
    brightInv (ledStripsSetFace ledStripsInitState 1 0) ∧
    brightInv (ledStripsSetBooped ledStripsInitState true 0) ∧
    brightInv (ledStripsUpdate (fun _ => 1) [] ledStripsInitState 0) :=
  brightness_capped (fun _ => 1) (fun _ => by norm_num) (fun _ => by norm_num)
    ledStripsInitState [] 1 2 3 254 1 0 true (by decide)

end Protosuit
